import Mathlib

/-!
Shallow embedding of the lead-import pipeline implemented in
`src/components/leads/ImportLeadsDialog.tsx`.

Cell values are the tagged union {absent, string, number} of the spec's
data model (JS numbers are modelled as integers). Records, the component
state, the field mapping and the processing pass `processLeads` are
translated directly from the source; time-dependent values (`Date.now()`,
`new Date().toISOString()`) are supplied through an explicit `TimeEnv`
parameter so that the pipeline is a pure function.
-/

set_option autoImplicit false

namespace ImportLeads

/-- A spreadsheet cell as seen by the component: JS `undefined` (blank),
a string, or a number. -/
inductive Cell where
  | absent
  | str (s : String)
  | num (n : Int)
deriving DecidableEq, Repr

/-- JS truthiness of a cell value (`!val` in the source): `undefined`,
`""` and `0` are falsy, everything else truthy. -/
def Cell.truthy : Cell → Bool
  | .absent => false
  | .str s => s != ""
  | .num n => n != 0

/-- JS `String(val)` on a cell value. -/
def cellToString : Cell → String
  | .absent => "undefined"
  | .str s => s
  | .num n => toString n

/-- Model of JS `String.prototype.toLowerCase` (ASCII range). -/
def toLowerString (s : String) : String :=
  String.mk (s.toList.map Char.toLower)

/-- Strip leading and trailing whitespace from a character list. -/
def trimChars (cs : List Char) : List Char :=
  ((cs.dropWhile Char.isWhitespace).reverse.dropWhile Char.isWhitespace).reverse

/-- Decimal digit-string parse used to model JS `Number(...)` on strings. -/
def parseDigits (cs : List Char) : Option Nat :=
  if cs = [] then none
  else if cs.all Char.isDigit then
    some (cs.foldl (fun a c => a * 10 + (c.toNat - 48)) 0)
  else none

/-- Model of JS `Number(s)` for a string: trims whitespace, empty trims to
`0`, otherwise an optionally signed decimal integer; anything else is NaN
(`none`). -/
def jsStringToNumber (s : String) : Option Int :=
  match trimChars s.toList with
  | [] => some 0
  | '-' :: rest => (parseDigits rest).map (fun n => -(n : Int))
  | '+' :: rest => (parseDigits rest).map (fun n => (n : Int))
  | cs => (parseDigits cs).map (fun n => (n : Int))

/-- Model of JS `Number(val)` on a cell; `none` is NaN. -/
def jsToNumber : Cell → Option Int
  | .absent => none
  | .str s => jsStringToNumber s
  | .num n => some n

/-- JS `x || fallback` on an optional table-lookup result: `undefined` and
`""` select the fallback. -/
def jsOr (a : Option String) (b : String) : String :=
  match a with
  | some v => if v == "" then b else v
  | none => b

/-- Type `RawRow`: mapping from column name to cell value; a missing column
reads as `absent` (JS `row[col]` yielding `undefined`). -/
abbrev RawRow := List (String × Cell)

/-- Cell access `row[col]` from the source. -/
def getCell (row : RawRow) (col : String) : Cell :=
  (row.lookup col).getD .absent

/-- One entry of the fixed field schema `leadFields`. -/
structure FieldSchema where
  key : String
  label : String
  required : Bool
deriving DecidableEq, Repr

/-- Schema list `leadFields` from the source (lines 32–44). -/
def leadFields : List FieldSchema :=
  [⟨"name", "Name", true⟩,
   ⟨"phone", "Phone", true⟩,
   ⟨"email", "Email", false⟩,
   ⟨"city", "City", false⟩,
   ⟨"value", "Lead Value", false⟩,
   ⟨"source", "Source", false⟩,
   ⟨"stage", "Stage", false⟩,
   ⟨"priority", "Priority", false⟩,
   ⟨"status", "Status", false⟩,
   ⟨"projectName", "Project Name", false⟩,
   ⟨"notes", "Notes", false⟩]

/-- Vocabulary table `sourceMapping` from the source. -/
def sourceMapping : List (String × String) :=
  [("website", "website"),
   ("google", "google_ads"),
   ("referral", "referral"),
   ("social", "social_media"),
   ("other", "other")]

/-- Vocabulary table `stageMapping` from the source. -/
def stageMapping : List (String × String) :=
  [("new", "new"),
   ("qualified", "qualified"),
   ("proposal", "proposal"),
   ("negotiation", "negotiation"),
   ("won", "won"),
   ("lost", "lost")]

/-- Vocabulary table `priorityMapping` from the source. -/
def priorityMapping : List (String × String) :=
  [("hot", "hot"),
   ("warm", "warm"),
   ("cold", "cold")]

/-- Lookup `tbl[String(val).toLowerCase()] || fallback` from the source. -/
def vocabLookup (tbl : List (String × String)) (tok fb : String) : String :=
  jsOr (tbl.lookup tok) fb

/-- The `Partial<Lead>` object built per row: system fields are always
set, mapped fields are optional (`none` = never assigned). -/
structure Lead where
  id : String
  createdAt : String
  updatedAt : String
  status : String
  stage : String
  priority : String
  category : String
  subcategory : String
  name : Option String := none
  phone : Option String := none
  email : Option String := none
  city : Option String := none
  value : Option Int := none
  source : Option String := none
  projectName : Option String := none
  notes : Option String := none
deriving DecidableEq, Repr

/-- Time-dependent values used while processing row `index`:
`Date.now()` and the two `new Date().toISOString()` calls. -/
structure TimeEnv where
  now : Nat → Nat
  isoCreated : Nat → String
  isoUpdated : Nat → String

/-- The default lead built at the top of the `forEach` body
(source lines 133–144). -/
def mkDefaultLead (t : TimeEnv) (index : Nat) : Lead :=
  { id := "import_" ++ toString (t.now index) ++ "_" ++ toString index
    createdAt := t.isoCreated index
    updatedAt := t.isoUpdated index
    status := "active"
    stage := "new"
    priority := "warm"
    category := "property"
    subcategory := "india_property" }

/-- One iteration of `Object.entries(columnMapping).forEach` (source
lines 146–162): skip falsy cells, otherwise dispatch on the field key.
The `switch` has no `status` case, so any other key falls through with
the lead unchanged. -/
def applyField (row : RawRow) (lead : Lead) (key col : String) : Lead :=
  let val := getCell row col
  if val.truthy = false then lead
  else
    match key with
    | "name" => { lead with name := some (cellToString val) }
    | "phone" => { lead with phone := some (cellToString val) }
    | "email" => { lead with email := some (cellToString val) }
    | "city" => { lead with city := some (cellToString val) }
    | "value" => { lead with value := some ((jsToNumber val).getD 0) }
    | "source" =>
      { lead with source := some (vocabLookup sourceMapping (toLowerString (cellToString val)) "other") }
    | "stage" =>
      { lead with stage := vocabLookup stageMapping (toLowerString (cellToString val)) "new" }
    | "priority" =>
      { lead with priority := vocabLookup priorityMapping (toLowerString (cellToString val)) "warm" }
    | "projectName" => { lead with projectName := some (cellToString val) }
    | "notes" => { lead with notes := some (cellToString val) }
    | _ => lead

/-- Type `ColumnMapping`: field key → chosen source column, iterated in
insertion order like `Object.entries`. -/
abbrev ColumnMapping := List (String × String)

/-- Normalization of one raw row: defaults, then the mapped fields. -/
def normalizeRow (t : TimeEnv) (m : ColumnMapping) (index : Nat) (row : RawRow) : Lead :=
  m.foldl (fun l kc => applyField row l kc.1 kc.2) (mkDefaultLead t index)

/-- JS falsiness of an optional string field (`!lead.name`):
unassigned or empty. -/
def jsFalsyStr (a : Option String) : Bool :=
  match a with
  | none => true
  | some s => s == ""

/-- Phone normalization `lead.phone.replace` of all whitespace with nothing. -/
def stripWhitespace (s : String) : String :=
  String.mk (s.toList.filter (fun c => !c.isWhitespace))

/-- The rejection test of source line 164: `!lead.name || !lead.phone`. -/
def isRejected (t : TimeEnv) (m : ColumnMapping) (index : Nat) (row : RawRow) : Bool :=
  let lead := normalizeRow t m index row
  jsFalsyStr lead.name || jsFalsyStr lead.phone

/-- Mutable state threaded through the `forEach` of `processLeads`:
accepted leads, the phone `Set`, and the duplicate counter. -/
structure ProcState where
  leads : List Lead
  phoneSet : List String
  dupCount : Nat
deriving DecidableEq, Repr

/-- Body of the `forEach` in `processLeads` (source lines 132–171). -/
def processRow (t : TimeEnv) (m : ColumnMapping) (st : ProcState) (index : Nat)
    (row : RawRow) : ProcState :=
  let lead := normalizeRow t m index row
  if jsFalsyStr lead.name || jsFalsyStr lead.phone then st
  else
    let phone := stripWhitespace (lead.phone.getD "")
    if st.phoneSet.contains phone then { st with dupCount := st.dupCount + 1 }
    else { st with leads := st.leads ++ [lead], phoneSet := phone :: st.phoneSet }

/-- The `forEach` loop over `rawData` carrying the running index. -/
def processAux (t : TimeEnv) (m : ColumnMapping) : Nat → List RawRow → ProcState → ProcState
  | _, [], st => st
  | index, row :: rest, st => processAux t m (index + 1) rest (processRow t m st index row)

/-- Function `processLeads` (source lines 127–176): the accepted leads in order and
the duplicate count. -/
def processLeads (t : TimeEnv) (m : ColumnMapping) (rows : List RawRow) :
    List Lead × Nat :=
  let st := processAux t m 0 rows ⟨[], [], 0⟩
  (st.leads, st.dupCount)

/-- Number of rows rejected for a missing name/phone, rows counted from
starting index `index`. -/
def rejectedCount (t : TimeEnv) (m : ColumnMapping) : Nat → List RawRow → Nat
  | _, [] => 0
  | index, row :: rest =>
    (if isRejected t m index row then 1 else 0) + rejectedCount t m (index + 1) rest

/-- The candidate records that survive per-row rejection, in row order,
rows counted from starting index `index`. -/
def candidatesFrom (t : TimeEnv) (m : ColumnMapping) : Nat → List RawRow → List Lead
  | _, [] => []
  | index, row :: rest =>
    if isRejected t m index row then candidatesFrom t m (index + 1) rest
    else normalizeRow t m index row :: candidatesFrom t m (index + 1) rest

/-- The deduplication identity key of a candidate record:
its phone with all whitespace removed. -/
def dedupKey (l : Lead) : String :=
  stripWhitespace (l.phone.getD "")

/-- Spec-side deduplicator, written from the spec's words (§4.4): keys are
processed in input order against a seen-set; the first occurrence of a key
is kept, every later occurrence is dropped and counted. Returns the kept
records, the drop count and the final seen-set. -/
def specDedup (seen : List String) : List Lead → List Lead × Nat × List String
  | [] => ([], 0, seen)
  | l :: rest =>
    let k := dedupKey l
    if seen.contains k then
      let r := specDedup seen rest
      (r.1, r.2.1 + 1, r.2.2)
    else
      let r := specDedup (k :: seen) rest
      (l :: r.1, r.2.1, r.2.2)

/-- The dialog's pipeline step. -/
inductive Step where
  | upload
  | mapping
  | assignment
  | preview
  | complete
deriving DecidableEq, Repr

/-- The component-local state of `ImportLeadsDialog` (source lines 70–82). -/
structure DialogState where
  step : Step
  file : Option String
  rawData : List RawRow
  columns : List String
  columnMapping : ColumnMapping
  parsedLeads : List Lead
  duplicates : Nat
  isProcessing : Bool
  assignmentMode : String
  selectedCaller : String
deriving DecidableEq, Repr

/-- The initial component state (the `useState` initializers). -/
def initialState : DialogState :=
  { step := .upload
    file := none
    rawData := []
    columns := []
    columnMapping := []
    parsedLeads := []
    duplicates := 0
    isProcessing := false
    assignmentMode := "auto"
    selectedCaller := "" }

/-- Function `resetState` (source lines 92–101): resets exactly the eight states
set there; `assignmentMode` and `selectedCaller` are not touched. -/
def resetState (st : DialogState) : DialogState :=
  { st with
    step := .upload
    file := none
    rawData := []
    columns := []
    columnMapping := []
    parsedLeads := []
    duplicates := 0
    isProcessing := false }

/-- Outcome of `XLSX.read` + `sheet_to_json` on the selected file's bytes:
either the read throws (not a recognizable spreadsheet), or it yields the
sheet's rows as a list of cell lists. -/
inductive ParseOutcome where
  | notSpreadsheet
  | sheetJson (json : List (List Cell))
deriving DecidableEq, Repr

/-- Function `handleFileChange` (source lines 108–125) applied to a parse outcome.
The second component records whether any error was surfaced to the user
(the handler has no try/catch and never calls `toast`, so it is always
`false`). When the read throws, the thrown rejection leaves the state as
set so far: `isProcessing` stays `true` and the step is unchanged.
Otherwise `headers = json[0]` (empty when the sheet has zero rows),
`rows = json.slice(1)`, and the step becomes `mapping` unconditionally. -/
def handleFileChange (st : DialogState) (outcome : ParseOutcome) : DialogState × Bool :=
  match outcome with
  | .notSpreadsheet => ({ st with isProcessing := true }, false)
  | .sheetJson json =>
    let headers := (json.headD []).map cellToString
    let rows := json.tail
    ({ st with
        isProcessing := false
        columns := headers
        rawData := rows.map (fun r =>
          headers.enum.map (fun ih => (ih.2, (r.get? ih.1).getD .absent)))
        step := .mapping }, false)

/-- Modelled from the spec: the source file contains no `validate`
function or mapping-step advancement control (the dialog's mapping-step
markup is absent from the file); §4.2 specifies `validate` as returning
the required field keys of the schema that currently have no mapped
column. -/
def validate (m : ColumnMapping) : List String :=
  (leadFields.filter (fun f => f.required && (m.lookup f.key).isNone)).map (fun f => f.key)

/-- Modelled from the spec: the `mapping → assignment` transition is
triggered only when `validate` reports no missing required fields;
otherwise the step is unchanged (blocked). -/
def mappingToAssignment (st : DialogState) : DialogState :=
  if validate st.columnMapping = [] then { st with step := .assignment } else st

/-- Erase the per-run identifier and timestamps of a lead, keeping all
other fields. -/
def eraseRunMeta (l : Lead) : Lead :=
  { l with id := "", createdAt := "", updatedAt := "" }

/-- A concrete time environment for closed evaluations. -/
def demoTime : TimeEnv :=
  ⟨fun _ => 0, fun _ => "c", fun _ => "u"⟩

/-- The spec's test scenario mapping:
`{name: "Full Name", phone: "Mobile", city: "City"}`. -/
def scenarioMapping : ColumnMapping :=
  [("name", "Full Name"), ("phone", "Mobile"), ("city", "City")]

/-- The spec's test scenario rows under header
`["Full Name", "Mobile", "City"]`. -/
def scenarioRows : List RawRow :=
  [[("Full Name", .str "Asha"), ("Mobile", .str "98765 43210"), ("City", .str "Pune")],
   [("Full Name", .str "Ravi"), ("Mobile", .str "9876543210"), ("City", .str "Mumbai")],
   [("Full Name", .str ""), ("Mobile", .str "9998887777"), ("City", .str "Delhi")]]

/-- A dialog state mid-import with a recorded `single` assignment. -/
def exampleAssignedState : DialogState :=
  { initialState with
      step := .preview
      assignmentMode := "single"
      selectedCaller := "op1" }

theorem applyField_skip (row : RawRow) (lead : Lead) (key col : String)
    (h : (getCell row col).truthy = false) : applyField row lead key col = lead := by
  simp only [applyField]
  rw [if_pos h]

theorem applyField_status (row : RawRow) (lead : Lead) (key col : String) :
    (applyField row lead key col).status = lead.status := by
  simp only [applyField]
  split
  · rfl
  split <;> rfl

theorem foldl_applyField_status (row : RawRow) (m : ColumnMapping) :
    ∀ lead : Lead,
      (m.foldl (fun l kc => applyField row l kc.1 kc.2) lead).status = lead.status := by
  induction m with
  | nil => intro lead; rfl
  | cons kc rest ih =>
    intro lead
    simp only [List.foldl_cons]
    rw [ih, applyField_status]

theorem normalizeRow_status (t : TimeEnv) (m : ColumnMapping) (i : Nat) (row : RawRow) :
    (normalizeRow t m i row).status = "active" := by
  unfold normalizeRow
  rw [foldl_applyField_status]
  rfl

theorem eraseRunMeta_applyField (row : RawRow) (l : Lead) (key col : String) :
    eraseRunMeta (applyField row l key col) = applyField row (eraseRunMeta l) key col := by
  simp only [applyField]
  split
  · rfl
  split <;> rfl

theorem eraseRunMeta_foldl (row : RawRow) (m : ColumnMapping) :
    ∀ l : Lead,
      eraseRunMeta (m.foldl (fun l' kc => applyField row l' kc.1 kc.2) l) =
        m.foldl (fun l' kc => applyField row l' kc.1 kc.2) (eraseRunMeta l) := by
  induction m with
  | nil => intro l; rfl
  | cons kc rest ih =>
    intro l
    simp only [List.foldl_cons]
    rw [ih, eraseRunMeta_applyField]

theorem eraseRunMeta_mkDefaultLead (t t' : TimeEnv) (i i' : Nat) :
    eraseRunMeta (mkDefaultLead t i) = eraseRunMeta (mkDefaultLead t' i') := rfl

theorem eraseRunMeta_normalizeRow (t t' : TimeEnv) (m : ColumnMapping) (i i' : Nat)
    (row : RawRow) :
    eraseRunMeta (normalizeRow t m i row) = eraseRunMeta (normalizeRow t' m i' row) := by
  unfold normalizeRow
  rw [eraseRunMeta_foldl, eraseRunMeta_foldl, eraseRunMeta_mkDefaultLead t t' i i']

theorem name_of_eraseRunMeta (l : Lead) : (eraseRunMeta l).name = l.name := rfl

theorem phone_of_eraseRunMeta (l : Lead) : (eraseRunMeta l).phone = l.phone := rfl

theorem processRow_rejected (t : TimeEnv) (m : ColumnMapping) (st : ProcState) (i : Nat)
    (row : RawRow) (h : isRejected t m i row = true) :
    processRow t m st i row = st := by
  simp only [isRejected] at h
  simp only [processRow]
  rw [if_pos h]

theorem processRow_accepted (t : TimeEnv) (m : ColumnMapping) (st : ProcState) (i : Nat)
    (row : RawRow) (h : isRejected t m i row = false) :
    processRow t m st i row =
      if st.phoneSet.contains (dedupKey (normalizeRow t m i row)) then
        { st with dupCount := st.dupCount + 1 }
      else
        { st with leads := st.leads ++ [normalizeRow t m i row],
                  phoneSet := dedupKey (normalizeRow t m i row) :: st.phoneSet } := by
  simp only [isRejected] at h
  simp only [processRow, dedupKey]
  rw [if_neg (by simp [h])]

theorem specDedup_cons_mem (seen : List String) (l : Lead) (rest : List Lead)
    (h : seen.contains (dedupKey l) = true) :
    specDedup seen (l :: rest) =
      ((specDedup seen rest).1, (specDedup seen rest).2.1 + 1, (specDedup seen rest).2.2) := by
  simp only [specDedup]
  rw [if_pos h]

theorem specDedup_cons_new (seen : List String) (l : Lead) (rest : List Lead)
    (h : ¬ seen.contains (dedupKey l) = true) :
    specDedup seen (l :: rest) =
      (l :: (specDedup (dedupKey l :: seen) rest).1,
       (specDedup (dedupKey l :: seen) rest).2.1,
       (specDedup (dedupKey l :: seen) rest).2.2) := by
  simp only [specDedup]
  rw [if_neg h]

theorem candidatesFrom_cons_rejected (t : TimeEnv) (m : ColumnMapping) (i : Nat)
    (row : RawRow) (rest : List RawRow) (h : isRejected t m i row = true) :
    candidatesFrom t m i (row :: rest) = candidatesFrom t m (i + 1) rest := by
  simp only [candidatesFrom]
  rw [if_pos h]

theorem candidatesFrom_cons_accepted (t : TimeEnv) (m : ColumnMapping) (i : Nat)
    (row : RawRow) (rest : List RawRow) (h : isRejected t m i row = false) :
    candidatesFrom t m i (row :: rest) =
      normalizeRow t m i row :: candidatesFrom t m (i + 1) rest := by
  simp only [candidatesFrom]
  rw [if_neg (by simp [h])]

theorem processAux_spec (t : TimeEnv) (m : ColumnMapping) :
    ∀ (rows : List RawRow) (i : Nat) (L : List Lead) (S : List String) (d : Nat),
      processAux t m i rows ⟨L, S, d⟩ =
        ⟨L ++ (specDedup S (candidatesFrom t m i rows)).1,
         (specDedup S (candidatesFrom t m i rows)).2.2,
         d + (specDedup S (candidatesFrom t m i rows)).2.1⟩ := by
  intro rows
  induction rows with
  | nil =>
    intro i L S d
    simp [processAux, candidatesFrom, specDedup]
  | cons row rest ih =>
    intro i L S d
    rcases hrej : isRejected t m i row with _ | _
    · rw [candidatesFrom_cons_accepted t m i row rest hrej]
      simp only [processAux]
      rw [processRow_accepted t m _ i row hrej]
      by_cases hc : S.contains (dedupKey (normalizeRow t m i row)) = true
      · rw [if_pos hc, specDedup_cons_mem S _ _ hc]
        rw [ih (i + 1) L S (d + 1)]
        dsimp only
        simp only [ProcState.mk.injEq, true_and, and_true]
        omega
      · rw [if_neg hc, specDedup_cons_new S _ _ hc]
        rw [ih (i + 1) (L ++ [normalizeRow t m i row]) (dedupKey (normalizeRow t m i row) :: S) d]
        dsimp only
        simp only [ProcState.mk.injEq, true_and, and_true]
        simp
    · rw [candidatesFrom_cons_rejected t m i row rest hrej]
      simp only [processAux]
      rw [processRow_rejected t m _ i row hrej]
      exact ih (i + 1) L S d

theorem specDedup_sublist (ls : List Lead) :
    ∀ seen : List String, List.Sublist (specDedup seen ls).1 ls := by
  induction ls with
  | nil =>
    intro seen
    simp [specDedup]
  | cons l rest ih =>
    intro seen
    simp only [specDedup]
    split
    · exact List.Sublist.cons l (ih seen)
    · exact List.Sublist.cons₂ l (ih _)

theorem specDedup_length (ls : List Lead) :
    ∀ seen : List String, (specDedup seen ls).1.length + (specDedup seen ls).2.1 = ls.length := by
  induction ls with
  | nil =>
    intro seen
    simp [specDedup]
  | cons l rest ih =>
    intro seen
    simp only [specDedup]
    split
    · have := ih seen
      simp only [List.length_cons]
      omega
    · have := ih (dedupKey l :: seen)
      simp only [List.length_cons]
      omega

theorem candidatesFrom_length (t : TimeEnv) (m : ColumnMapping) :
    ∀ (rows : List RawRow) (i : Nat),
      (candidatesFrom t m i rows).length + rejectedCount t m i rows = rows.length := by
  intro rows
  induction rows with
  | nil =>
    intro i
    simp [candidatesFrom, rejectedCount]
  | cons row rest ih =>
    intro i
    rcases hrej : isRejected t m i row with _ | _
    · rw [candidatesFrom_cons_accepted t m i row rest hrej]
      simp only [rejectedCount, List.length_cons]
      rw [if_neg (by simp [hrej])]
      have := ih (i + 1)
      omega
    · rw [candidatesFrom_cons_rejected t m i row rest hrej]
      simp only [rejectedCount, List.length_cons]
      rw [if_pos hrej]
      have := ih (i + 1)
      omega

theorem processLeads_eq_specDedup (t : TimeEnv) (m : ColumnMapping) (rows : List RawRow) :
    processLeads t m rows =
      ((specDedup [] (candidatesFrom t m 0 rows)).1,
       (specDedup [] (candidatesFrom t m 0 rows)).2.1) := by
  simp only [processLeads]
  rw [show (⟨[], [], 0⟩ : ProcState) = ⟨([] : List Lead), ([] : List String), 0⟩ from rfl]
  rw [processAux_spec t m rows 0 [] [] 0]
  simp

theorem normalizeRow_name_time (t t' : TimeEnv) (m : ColumnMapping) (i i' : Nat)
    (row : RawRow) : (normalizeRow t m i row).name = (normalizeRow t' m i' row).name := by
  rw [← name_of_eraseRunMeta, eraseRunMeta_normalizeRow t t' m i i' row, name_of_eraseRunMeta]

theorem normalizeRow_phone_time (t t' : TimeEnv) (m : ColumnMapping) (i i' : Nat)
    (row : RawRow) : (normalizeRow t m i row).phone = (normalizeRow t' m i' row).phone := by
  rw [← phone_of_eraseRunMeta, eraseRunMeta_normalizeRow t t' m i i' row, phone_of_eraseRunMeta]

theorem isRejected_time (t t' : TimeEnv) (m : ColumnMapping) (i : Nat) (row : RawRow) :
    isRejected t m i row = isRejected t' m i row := by
  simp only [isRejected]
  rw [normalizeRow_name_time t t' m i i row, normalizeRow_phone_time t t' m i i row]

theorem dedupKey_time (t t' : TimeEnv) (m : ColumnMapping) (i : Nat) (row : RawRow) :
    dedupKey (normalizeRow t m i row) = dedupKey (normalizeRow t' m i row) := by
  simp only [dedupKey]
  rw [normalizeRow_phone_time t t' m i i row]

theorem processRow_time_congr (t t' : TimeEnv) (m : ColumnMapping) (st st' : ProcState)
    (i : Nat) (row : RawRow)
    (hl : st.leads.map eraseRunMeta = st'.leads.map eraseRunMeta)
    (hp : st.phoneSet = st'.phoneSet) (hd : st.dupCount = st'.dupCount) :
    (processRow t m st i row).leads.map eraseRunMeta
        = (processRow t' m st' i row).leads.map eraseRunMeta ∧
    (processRow t m st i row).phoneSet = (processRow t' m st' i row).phoneSet ∧
    (processRow t m st i row).dupCount = (processRow t' m st' i row).dupCount := by
  rcases hrej : isRejected t' m i row with _ | _
  · have hrej1 : isRejected t m i row = false := by
      rw [isRejected_time t t' m i row]
      exact hrej
    rw [processRow_accepted t m st i row hrej1, processRow_accepted t' m st' i row hrej]
    rw [dedupKey_time t t' m i row, hp]
    by_cases hc : st'.phoneSet.contains (dedupKey (normalizeRow t' m i row)) = true
    · rw [if_pos hc, if_pos hc]
      exact ⟨hl, rfl, by dsimp only; omega⟩
    · rw [if_neg hc, if_neg hc]
      refine ⟨?_, rfl, hd⟩
      dsimp only
      simp only [List.map_append, List.map_cons, List.map_nil]
      rw [hl, eraseRunMeta_normalizeRow t t' m i i row]
  · have hrej1 : isRejected t m i row = true := by
      rw [isRejected_time t t' m i row]
      exact hrej
    rw [processRow_rejected t m st i row hrej1, processRow_rejected t' m st' i row hrej]
    exact ⟨hl, hp, hd⟩

theorem processAux_time_congr (t t' : TimeEnv) (m : ColumnMapping) :
    ∀ (rows : List RawRow) (i : Nat) (st st' : ProcState),
      st.leads.map eraseRunMeta = st'.leads.map eraseRunMeta →
      st.phoneSet = st'.phoneSet →
      st.dupCount = st'.dupCount →
      (processAux t m i rows st).leads.map eraseRunMeta
          = (processAux t' m i rows st').leads.map eraseRunMeta ∧
      (processAux t m i rows st).phoneSet = (processAux t' m i rows st').phoneSet ∧
      (processAux t m i rows st).dupCount = (processAux t' m i rows st').dupCount := by
  intro rows
  induction rows with
  | nil =>
    intro i st st' hl hp hd
    exact ⟨hl, hp, hd⟩
  | cons row rest ih =>
    intro i st st' hl hp hd
    obtain ⟨hl', hp', hd'⟩ := processRow_time_congr t t' m st st' i row hl hp hd
    exact ih (i + 1) (processRow t m st i row) (processRow t' m st' i row) hl' hp' hd'

theorem getCell_single (c : String) (v : Cell) : getCell [(c, v)] c = v := by
  simp [getCell, List.lookup]

theorem applyField_source_eq (row : RawRow) (lead : Lead) (col : String)
    (hv : (getCell row col).truthy = true) :
    applyField row lead "source" col =
      { lead with
          source := some (vocabLookup sourceMapping (toLowerString (cellToString (getCell row col))) "other") } := by
  simp only [applyField]
  rw [if_neg (by simp [hv])]

theorem applyField_stage_eq (row : RawRow) (lead : Lead) (col : String)
    (hv : (getCell row col).truthy = true) :
    applyField row lead "stage" col =
      { lead with stage := vocabLookup stageMapping (toLowerString (cellToString (getCell row col))) "new" } := by
  simp only [applyField]
  rw [if_neg (by simp [hv])]

theorem applyField_priority_eq (row : RawRow) (lead : Lead) (col : String)
    (hv : (getCell row col).truthy = true) :
    applyField row lead "priority" col =
      { lead with priority :=
          vocabLookup priorityMapping (toLowerString (cellToString (getCell row col))) "warm" } := by
  simp only [applyField]
  rw [if_neg (by simp [hv])]

theorem applyField_value_eq (row : RawRow) (lead : Lead) (col : String)
    (hv : (getCell row col).truthy = true) :
    applyField row lead "value" col =
      { lead with value := some ((jsToNumber (getCell row col)).getD 0) } := by
  simp only [applyField]
  rw [if_neg (by simp [hv])]

theorem normalizeRow_single (t : TimeEnv) (k c : String) (i : Nat) (row : RawRow) :
    normalizeRow t [(k, c)] i row = applyField row (mkDefaultLead t i) k c := by
  simp [normalizeRow]

/-- A dialog state in the mapping step whose mapping covers `name` only. -/
def exampleMappingState : DialogState :=
  { initialState with step := .mapping, columnMapping := [("name", "Full Name")] }

/-- Claim C1: a row whose mapped `name` or `phone` is unset (falsy) after
coercion leaves the accumulator untouched — it produces no record — and
the number of rejected rows plus the duplicate count plus the final result
length equals the number of input rows. -/
theorem processLeads_rejection_partition (t : TimeEnv) (m : ColumnMapping)
    (rows : List RawRow) (st : ProcState) (i : Nat) (row : RawRow)
    (h : isRejected t m i row = true) :
    processRow t m st i row = st ∧
    rejectedCount t m 0 rows + (processLeads t m rows).2 + (processLeads t m rows).1.length
      = rows.length := by
  refine ⟨processRow_rejected t m st i row h, ?_⟩
  rw [processLeads_eq_specDedup]
  dsimp only
  have h1 := specDedup_length (candidatesFrom t m 0 rows) []
  have h2 := candidatesFrom_length t m rows 0
  omega

theorem processLeads_rejection_partition_witness :
    processRow demoTime scenarioMapping ⟨[], [], 0⟩ 2
        [("Full Name", Cell.str ""), ("Mobile", Cell.str "9998887777"), ("City", Cell.str "Delhi")]
      = ⟨[], [], 0⟩ ∧
    rejectedCount demoTime scenarioMapping 0 scenarioRows
        + (processLeads demoTime scenarioMapping scenarioRows).2
        + (processLeads demoTime scenarioMapping scenarioRows).1.length
      = scenarioRows.length :=
  processLeads_rejection_partition demoTime scenarioMapping scenarioRows ⟨[], [], 0⟩ 2
    [("Full Name", Cell.str ""), ("Mobile", Cell.str "9998887777"), ("City", Cell.str "Delhi")]
    (by decide)

/-- Claim C2: the processing pass equals the spec's first-wins
deduplication (keyed on the whitespace-stripped phone) applied to the
sequence of candidate records in input order: the output lists, the
duplicate count, the order preservation (the output is a sublist of the
candidates) and the drop accounting all agree, so a later record with the
same key is never preferred. -/
theorem processLeads_firstWins_dedup (t : TimeEnv) (m : ColumnMapping) (rows : List RawRow) :
    (processLeads t m rows).1 = (specDedup [] (candidatesFrom t m 0 rows)).1 ∧
    (processLeads t m rows).2 = (specDedup [] (candidatesFrom t m 0 rows)).2.1 ∧
    List.Sublist (processLeads t m rows).1 (candidatesFrom t m 0 rows) ∧
    (processLeads t m rows).1.length + (processLeads t m rows).2
      = (candidatesFrom t m 0 rows).length := by
  have he := processLeads_eq_specDedup t m rows
  refine ⟨by rw [he], by rw [he], ?_, ?_⟩
  · rw [he]
    exact specDedup_sublist (candidatesFrom t m 0 rows) []
  · rw [he]
    exact specDedup_length (candidatesFrom t m 0 rows) []

/-- Claim C3: on the spec's concrete scenario (header Full Name / Mobile /
City), exactly one record survives — Asha's, first occurrence of the
normalized phone 9876543210 — Ravi's row is dropped as a duplicate (not
rejected), the blank-name row is rejected, and duplicateCount = 1. -/
theorem processLeads_scenario :
    (processLeads demoTime scenarioMapping scenarioRows).1.length = 1 ∧
    (processLeads demoTime scenarioMapping scenarioRows).2 = 1 ∧
    (processLeads demoTime scenarioMapping scenarioRows).1.map Lead.name = [some "Asha"] ∧
    (processLeads demoTime scenarioMapping scenarioRows).1.map Lead.phone
      = [some "98765 43210"] ∧
    (processLeads demoTime scenarioMapping scenarioRows).1.map Lead.city = [some "Pune"] ∧
    dedupKey (normalizeRow demoTime scenarioMapping 0
        [("Full Name", Cell.str "Asha"), ("Mobile", Cell.str "98765 43210"),
         ("City", Cell.str "Pune")]) = "9876543210" ∧
    isRejected demoTime scenarioMapping 1
        [("Full Name", Cell.str "Ravi"), ("Mobile", Cell.str "9876543210"),
         ("City", Cell.str "Mumbai")] = false ∧
    isRejected demoTime scenarioMapping 2
        [("Full Name", Cell.str ""), ("Mobile", Cell.str "9998887777"),
         ("City", Cell.str "Delhi")] = true := by
  decide

/-- Claim C4 is refuted at this concrete state: `resetState` leaves the
previously chosen assignment mode and selected operator observable after
the reset, so the reset does not discard the recorded assignment
decision. -/
theorem resetState_retains_assignment :
    (resetState exampleAssignedState).assignmentMode = "single" ∧
    (resetState exampleAssignedState).selectedCaller = "op1" ∧
    resetState exampleAssignedState ≠ initialState := by
  decide

/-- Claim C4 as amended: `resetState` restores every transient import
state — step, file, raw rows, columns, mapping, computed records,
duplicate count, processing flag — to its initial value, but retains the
assignment mode and the selected operator from the prior attempt. -/
theorem resetState_discards_import_state (st : DialogState) :
    resetState st =
      { initialState with
          assignmentMode := st.assignmentMode
          selectedCaller := st.selectedCaller } := by
  cases st
  rfl

/-- Claim C5: with any required schema field left unmapped, `validate`
returns a non-empty list containing that field's key and the
mapping → assignment transition is blocked; a mapping covering `name` but
not `phone` yields exactly `["phone"]`. -/
theorem validate_blocks_missing_required (m : ColumnMapping) (st : DialogState)
    (f : FieldSchema) (hf : f ∈ leadFields) (hreq : f.required = true)
    (hun : m.lookup f.key = none) :
    f.key ∈ validate m ∧
    validate m ≠ [] ∧
    (st.columnMapping = m → mappingToAssignment st = st) ∧
    ((m.lookup "name").isSome = true → m.lookup "phone" = none → validate m = ["phone"]) := by
  have hpf : (f.required && (m.lookup f.key).isNone) = true := by
    rw [hreq, hun]
    rfl
  have hmem : f.key ∈ validate m := by
    unfold validate
    refine List.mem_map_of_mem (fun g => g.key) (List.mem_filter.mpr ⟨hf, ?_⟩)
    simpa using hpf
  refine ⟨hmem, List.ne_nil_of_mem hmem, ?_, ?_⟩
  · intro hcm
    unfold mappingToAssignment
    rw [if_neg]
    rw [hcm]
    exact List.ne_nil_of_mem hmem
  · intro hs hp
    obtain ⟨v, hv⟩ := Option.isSome_iff_exists.mp hs
    simp [validate, leadFields, List.filter, hv, hp]

theorem validate_blocks_missing_required_witness :
    "phone" ∈ validate [("name", "Full Name")] ∧
    validate [("name", "Full Name")] ≠ [] ∧
    (exampleMappingState.columnMapping = [("name", "Full Name")] →
      mappingToAssignment exampleMappingState = exampleMappingState) ∧
    ((List.lookup "name" [("name", "Full Name")]).isSome = true →
      List.lookup "phone" [("name", "Full Name")] = none →
      validate [("name", "Full Name")] = ["phone"]) :=
  validate_blocks_missing_required [("name", "Full Name")] exampleMappingState
    ⟨"phone", "Phone", true⟩ (by decide) rfl (by decide)

/-- Claim C6 is contradicted by the code: the file handler has no
try/catch and never surfaces an error (the surfaced flag is `false` on
every path), a sheet whose decoded JSON has zero rows still transitions
to `mapping` (with empty columns) instead of failing and staying in
`upload`, and a header-only sheet transitions with an empty row
sequence. -/
theorem handleFileChange_no_parse_failure_path :
    (handleFileChange initialState (ParseOutcome.sheetJson [])).1.step = Step.mapping ∧
    (handleFileChange initialState (ParseOutcome.sheetJson [])).1.columns = [] ∧
    (handleFileChange initialState (ParseOutcome.sheetJson [])).2 = false ∧
    (handleFileChange initialState ParseOutcome.notSpreadsheet).1.step = Step.upload ∧
    (handleFileChange initialState ParseOutcome.notSpreadsheet).2 = false ∧
    (handleFileChange initialState ParseOutcome.notSpreadsheet).1.isProcessing = true ∧
    (handleFileChange initialState (ParseOutcome.sheetJson [[Cell.str "A"]])).1.step
      = Step.mapping ∧
    (handleFileChange initialState (ParseOutcome.sheetJson [[Cell.str "A"]])).1.rawData = [] := by
  decide

/-- Claim C7: enumerated cells whose lowercased string form is not a
vocabulary token normalize to the table's fallback (`other`, `new`,
`warm`), a non-numeric value cell normalizes to `0`, and the concrete
stage cells `"WON"` / `"unknown_stage"` normalize to `won` / `new`. -/
theorem normalize_fallback_values (t : TimeEnv) (i : Nat) (v : Cell) (c s : String)
    (hv : v.truthy = true)
    (hsrc : sourceMapping.lookup (toLowerString (cellToString v)) = none)
    (hstg : stageMapping.lookup (toLowerString (cellToString v)) = none)
    (hpri : priorityMapping.lookup (toLowerString (cellToString v)) = none)
    (hs : (Cell.str s).truthy = true)
    (hnum : jsStringToNumber s = none) :
    (normalizeRow t [("source", c)] i [(c, v)]).source = some "other" ∧
    (normalizeRow t [("stage", c)] i [(c, v)]).stage = "new" ∧
    (normalizeRow t [("priority", c)] i [(c, v)]).priority = "warm" ∧
    (normalizeRow t [("value", c)] i [(c, Cell.str s)]).value = some 0 ∧
    (normalizeRow demoTime [("stage", "S")] 0 [("S", Cell.str "WON")]).stage = "won" ∧
    (normalizeRow demoTime [("stage", "S")] 0 [("S", Cell.str "unknown_stage")]).stage
      = "new" := by
  have hg : getCell [(c, v)] c = v := getCell_single c v
  have hgs : getCell [(c, Cell.str s)] c = Cell.str s := getCell_single c (Cell.str s)
  refine ⟨?_, ?_, ?_, ?_, by decide, by decide⟩
  · rw [normalizeRow_single, applyField_source_eq _ _ _ (by rw [hg]; exact hv)]
    dsimp only
    rw [hg]
    simp [vocabLookup, jsOr, hsrc]
  · rw [normalizeRow_single, applyField_stage_eq _ _ _ (by rw [hg]; exact hv)]
    dsimp only
    rw [hg]
    simp [vocabLookup, jsOr, hstg]
  · rw [normalizeRow_single, applyField_priority_eq _ _ _ (by rw [hg]; exact hv)]
    dsimp only
    rw [hg]
    simp [vocabLookup, jsOr, hpri]
  · rw [normalizeRow_single, applyField_value_eq _ _ _ (by rw [hgs]; exact hs)]
    dsimp only
    rw [hgs]
    simp [jsToNumber, hnum]

theorem normalize_fallback_values_witness :
    (normalizeRow demoTime [("source", "C")] 0 [("C", Cell.str "zzz")]).source = some "other" ∧
    (normalizeRow demoTime [("stage", "C")] 0 [("C", Cell.str "zzz")]).stage = "new" ∧
    (normalizeRow demoTime [("priority", "C")] 0 [("C", Cell.str "zzz")]).priority = "warm" ∧
    (normalizeRow demoTime [("value", "C")] 0 [("C", Cell.str "abc")]).value = some 0 ∧
    (normalizeRow demoTime [("stage", "S")] 0 [("S", Cell.str "WON")]).stage = "won" ∧
    (normalizeRow demoTime [("stage", "S")] 0 [("S", Cell.str "unknown_stage")]).stage
      = "new" :=
  normalize_fallback_values demoTime 0 (Cell.str "zzz") "C" "abc" (by decide) (by decide)
    (by decide) (by decide) (by decide) (by decide)

/-- Claim C8: re-running normalization plus deduplication on the same raw
rows and the same mapping yields the same record contents — all fields
except the per-run identifier and timestamps — in the same order, and the
same duplicate count, for any two runs (time environments). -/
theorem processLeads_idempotent_up_to_ids (t t' : TimeEnv) (m : ColumnMapping)
    (rows : List RawRow) :
    (processLeads t m rows).1.map eraseRunMeta = (processLeads t' m rows).1.map eraseRunMeta ∧
    (processLeads t m rows).2 = (processLeads t' m rows).2 := by
  simp only [processLeads]
  obtain ⟨h1, _, h3⟩ := processAux_time_congr t t' m rows 0 ⟨[], [], 0⟩ ⟨[], [], 0⟩ rfl rfl rfl
  exact ⟨h1, h3⟩

/-- Claim C9: every produced candidate record has status `"active"` — the
per-field switch has no `status` case, so a mapped status column never
overrides the default, while the schema offers `status` as mappable and
`stage` / `priority` are overridable. -/
theorem normalize_status_invariant :
    (∀ (t : TimeEnv) (m : ColumnMapping) (i : Nat) (row : RawRow),
        (normalizeRow t m i row).status = "active") ∧
    (⟨"status", "Status", false⟩ : FieldSchema) ∈ leadFields ∧
    (normalizeRow demoTime [("status", "S")] 0 [("S", Cell.str "inactive")]).status
      = "active" ∧
    (normalizeRow demoTime [("stage", "S")] 0 [("S", Cell.str "won")]).stage = "won" ∧
    (normalizeRow demoTime [("priority", "P")] 0 [("P", Cell.str "hot")]).priority = "hot" :=
  ⟨normalizeRow_status, by decide, by decide, by decide, by decide⟩

/-- Claim C10: a falsy cell — absent, empty string, or the number 0 — is
skipped before any coercion runs, leaving the field untouched; a 0 cell
mapped to `value` leaves value unset, and an empty-string name cell is
rejected exactly like an absent one. -/
theorem falsy_cells_skipped (row : RawRow) (lead : Lead) (key col : String)
    (h : (getCell row col).truthy = false) :
    applyField row lead key col = lead ∧
    Cell.truthy (Cell.str "") = false ∧
    Cell.truthy Cell.absent = false ∧
    Cell.truthy (Cell.num 0) = false ∧
    (normalizeRow demoTime [("value", "V")] 0 [("V", Cell.num 0)]).value = none ∧
    normalizeRow demoTime scenarioMapping 2
        [("Full Name", Cell.str ""), ("Mobile", Cell.str "9998887777")]
      = normalizeRow demoTime scenarioMapping 2 [("Mobile", Cell.str "9998887777")] ∧
    isRejected demoTime scenarioMapping 2
        [("Full Name", Cell.str ""), ("Mobile", Cell.str "9998887777")] = true :=
  ⟨applyField_skip row lead key col h, by decide, by decide, by decide, by decide,
   by decide, by decide⟩

theorem falsy_cells_skipped_witness :
    applyField [] (mkDefaultLead demoTime 0) "name" "C" = mkDefaultLead demoTime 0 ∧
    Cell.truthy (Cell.str "") = false ∧
    Cell.truthy Cell.absent = false ∧
    Cell.truthy (Cell.num 0) = false ∧
    (normalizeRow demoTime [("value", "V")] 0 [("V", Cell.num 0)]).value = none ∧
    normalizeRow demoTime scenarioMapping 2
        [("Full Name", Cell.str ""), ("Mobile", Cell.str "9998887777")]
      = normalizeRow demoTime scenarioMapping 2 [("Mobile", Cell.str "9998887777")] ∧
    isRejected demoTime scenarioMapping 2
        [("Full Name", Cell.str ""), ("Mobile", Cell.str "9998887777")] = true :=
  falsy_cells_skipped [] (mkDefaultLead demoTime 0) "name" "C" (by decide)

end ImportLeads
